import Mathlib

/-!
# atanika: process lifecycle of the two service skeletons

A shallow embedding of

* `internal/storage/pg/postgres.go`  (`Config`, `New`),
* `internal/app/app.go`              (`Run`, `setupLogger`; the url-shortener skeleton),
* `apigateway/internal/app/app.go`   (`Run`, `setupLogger`; the api-gateway skeleton),

and of the few pieces of the Go standard library they lean on (`errors.Is`,
`fmt.Errorf` with `%w`, `slog` levels, `signal.Notify` on a buffered channel,
the default disposition of a signal nothing has asked for).

`Run` is concurrent (one background goroutine runs the listener), so it is
embedded as an executable step function over an explicit state; the scheduler
and the outside world are the inputs.
-/

namespace Atanika

/-! ## Go errors -/

/-- A Go `error` value.  The two sentinels are distinct constructors, because Go
compares them by identity; `wrap` is the `*fmt.wrapError` that `fmt.Errorf`
builds for a `%w` verb (its own message plus the wrapped error). -/
inductive GoError where
  | errServerClosed
  | deadlineExceeded
  | other (msg : String)
  | wrap (msg : String) (err : GoError)
  deriving DecidableEq, Repr

namespace GoError

/-- The method `Error()`. -/
def Error : GoError → String
  | errServerClosed => "http: Server closed"
  | deadlineExceeded => "context deadline exceeded"
  | other msg => msg
  | wrap msg _ => msg

/-- The method `Unwrap()`, `none` where the error type has none. -/
def Unwrap : GoError → Option GoError
  | wrap _ err => some err
  | _ => none

end GoError

/-- The value `http.ErrServerClosed`. -/
def ErrServerClosed : GoError := GoError.errServerClosed

/-- The loop of `errors.Is`: compare, else unwrap and go on. -/
def errorsIsLoop (target : GoError) : GoError → Bool
  | GoError.wrap msg err => decide (GoError.wrap msg err = target) || errorsIsLoop target err
  | e => decide (e = target)

/-- The function `errors.Is(err, target)`; `none` is the nil error. -/
def errorsIs : Option GoError → Option GoError → Bool
  | some err, some target => errorsIsLoop target err
  | none, none => true
  | _, _ => false

/-- The chain of an error: the error itself, what its `Unwrap()` returns, what
that one's `Unwrap()` returns, and so on. -/
def unwrapChain : GoError → List GoError
  | GoError.wrap msg err => GoError.wrap msg err :: unwrapChain err
  | e => [e]

/-- In the words of the specification: `e` is `target`, or wraps it at some
depth. -/
def isOrWraps (target e : GoError) : Bool := decide (target ∈ unwrapChain e)

/-- The call `fmt.Errorf("%s: %w", op, err)`. -/
def fmtErrorfW (op : String) (err : GoError) : GoError :=
  GoError.wrap (op ++ ": " ++ err.Error) err

/-! ## `internal/storage/pg` -/

/-- A live `*sqlx.DB`. -/
structure DB where
  id : Nat
  deriving DecidableEq, Repr

namespace pg

/-- The struct `pg.Config`. -/
structure Config where
  Host : String
  Port : String
  Username : String
  DBName : String
  Password : String
  SSLMode : String
  deriving DecidableEq, Repr

/-- The `fmt.Sprintf` of `New`: every `%s` is replaced by the field, verbatim. -/
def connString (cfg : Config) : String :=
  "host=" ++ cfg.Host ++ " port=" ++ cfg.Port ++ " user=" ++ cfg.Username ++
    " dbname=" ++ cfg.DBName ++ " password=" ++ cfg.Password ++ " sslmode=" ++ cfg.SSLMode

/-- The function `pg.New`.  `sqlxOpen driverName dataSourceName` is `sqlx.Open`,
which yields a handle or an error.  The result is the Go pair
`(*sqlx.DB, error)`, `none` standing for nil. -/
def New (sqlxOpen : String → String → Except GoError DB) (cfg : Config) :
    Option DB × Option GoError :=
  match sqlxOpen "postgres" (connString cfg) with
  | Except.error err => (none, some (fmtErrorfW "storage.pg.New" err))
  | Except.ok db => (some db, none)

end pg

/-! ## `slog` -/

/-- The levels of `log/slog`. -/
inductive Level where
  | debug
  | info
  | warn
  | error
  deriving DecidableEq, Repr

/-- The numeric value of a level (`slog.LevelDebug = -4`, ...). -/
def Level.toInt : Level → Int
  | Level.debug => -4
  | Level.info => 0
  | Level.warn => 4
  | Level.error => 8

/-- Which handler a logger writes through. -/
inductive HandlerKind where
  | text
  | json
  | default
  deriving DecidableEq, Repr

/-- A non-nil `*slog.Logger`: its handler and the handler's minimum level. -/
structure Logger where
  handler : HandlerKind
  level : Level
  deriving DecidableEq, Repr

/-- The logger behind the package-level functions `slog.Info`, `slog.Error`:
the default handler at level Info (neither skeleton calls `slog.SetDefault`). -/
def slogDefault : Logger := { handler := HandlerKind.default, level := Level.info }

/-- An argument handed to a log call after the message. -/
inductive LogArg where
  | attr (key value : String)
  | str (s : String)
  | err (e : GoError)
  deriving DecidableEq, Repr

/-! ## The two `Run` functions -/

/-- A POSIX signal number. -/
abbrev Signal := Nat

/-- The signal `syscall.SIGHUP`. -/
def SIGHUP : Signal := 1

/-- The signal `syscall.SIGINT`. -/
def SIGINT : Signal := 2

/-- The signal `syscall.SIGKILL`. -/
def SIGKILL : Signal := 9

/-- The signal `syscall.SIGTERM`. -/
def SIGTERM : Signal := 15

/-- What an execution of `Run` does, in order of occurrence.  `srvRunCalled` and
`srvRunReturned` are the call and the return of `Server.Run`, which is
`ListenAndServe`; `stopCalled` and `stopReturned` those of `Server.Stop`, which
is `Shutdown(ctx)`; `closeCalled` and `closeReturned` those of the handle's
`Close`; `ctxCancel` is the deferred `shutdown()`. -/
inductive Event where
  | log (h : HandlerKind) (lvl : Level) (msg : String) (args : List LogArg)
  | pgNewReturned (db : Option DB) (err : Option GoError)
  | printDb (db : Option DB)
  | goSpawn
  | srvRunCalled
  | srvRunReturned (err : GoError)
  | notify (sigs : List Signal)
  | received (sig : Signal)
  | stopCalled
  | stopReturned (err : Option GoError)
  | closeCalled
  | closeReturned (err : Option GoError)
  | ctxCancel
  deriving DecidableEq, Repr

/-- A log call on a non-nil logger: one entry if the level is enabled. -/
def Logger.emit (l : Logger) (lvl : Level) (msg : String) (args : List LogArg) : List Event :=
  if l.level.toInt ≤ lvl.toInt then [Event.log l.handler lvl msg args] else []

namespace app

def envLocal : String := "local"

def envDev : String := "dev"

def envProd : String := "prod"

/-- The function `setupLogger` (the same text in both skeletons); `none` is the
nil `*slog.Logger` the `switch` leaves when no case matches. -/
def setupLogger (env : String) : Option Logger :=
  if env = envLocal then some { handler := HandlerKind.text, level := Level.debug }
  else if env = envDev then some { handler := HandlerKind.json, level := Level.debug }
  else if env = envProd then some { handler := HandlerKind.json, level := Level.info }
  else none

/-- Modelled from the spec: the configuration record of `internal/config`, which
is not among the sources; these are the fields `Run` reads from it. -/
structure Config where
  Env : String
  PgHost : String
  PgPort : String
  PgUser : String
  PgName : String
  SSLMode : String
  PgPassword : String
  HttpPort : String
  deriving DecidableEq, Repr

/-- Which of the two skeletons runs. -/
inductive Skeleton where
  | urlShortener
  | apiGateway
  deriving DecidableEq, Repr

/-- The outside world of one execution: the loaded configuration, what the
collaborators answer when `Run` calls them, and the default disposition of
signals in the Go runtime and the operating system: `defaultEnds sig` says
whether a signal that no `signal.Notify` has asked for ends the process. -/
structure World where
  cfg : Config
  sqlxOpen : String → String → Except GoError DB
  stopResult : Option GoError
  closeResult : Option GoError
  defaultEnds : Signal → Bool

/-- The `pg.Config` literal `Run` passes to `pg.New`. -/
def pgConfig (cfg : Config) : pg.Config :=
  { Host := cfg.PgHost, Port := cfg.PgPort, Username := cfg.PgUser, DBName := cfg.PgName,
    SSLMode := cfg.SSLMode, Password := cfg.PgPassword }

/-- Where the main goroutine stands in `Run`: the statement it executes next,
with the local variables that are live there. -/
inductive MainPc where
  | idle
  | atLogInfo (log : Option Logger)
  | atLogDebug (log : Logger)
  | atPgNew (log : Logger)
  | atPrintDb (log : Logger) (db : Option DB) (err : Option GoError)
  | atErrCheck (log : Logger) (db : Option DB) (err : Option GoError)
  | atExit
  | atGo (log : Logger) (db : Option DB)
  | atSlogInfo (log : Logger) (db : Option DB)
  | atNotify (log : Logger) (db : Option DB)
  | atRecv (log : Logger) (db : Option DB)
  | atStop (log : Logger) (db : Option DB)
  | inStop (log : Logger) (db : Option DB)
  | atStopErrCheck (log : Logger) (db : Option DB) (err : Option GoError)
  | atClose (db : Option DB)
  | atCloseErrCheck (db : Option DB) (err : Option GoError)
  | atReturn (db : Option DB)
  | atDeferredClose (db : Option DB)
  | done
  deriving DecidableEq, Repr

/-- Where the goroutine started by `go func() { ... }()` stands. -/
inductive BgPc where
  | notSpawned
  | spawned
  | serving
  | returned (err : Option GoError)
  | finished
  deriving DecidableEq, Repr

/-- The process as a whole: running, ended by `os.Exit`, by a panic, by `Run`
returning, or by a signal that was left to its default disposition. -/
inductive Proc where
  | running
  | exited (code : Nat)
  | panicked
  | returned
  | killed (sig : Signal)
  deriving DecidableEq, Repr

/-- The state of an execution of `Run`. -/
structure State where
  main : MainPc
  bg : BgPc
  quit : Option Signal
  notified : List Signal
  trace : List Event
  proc : Proc
  deriving DecidableEq, Repr

/-- The process before `Run` is entered. -/
def init : State :=
  { main := MainPc.idle, bg := BgPc.notSpawned, quit := none, notified := [], trace := [],
    proc := Proc.running }

/-- What the scheduler or the outside world does next.  `listenerReturns e` is
`ListenAndServe` returning, which by its contract is always with a non-nil
error.  `signal sig` is the operating system delivering `sig` to the process,
whether or not `Run` has asked for it. -/
inductive Input where
  | main
  | bg
  | listenerReturns (e : GoError)
  | signal (sig : Signal)
  deriving DecidableEq, Repr

/-- The first log line of `Run`. -/
def startingEntry (sk : Skeleton) (log : Logger) (cfg : Config) : List Event :=
  match sk with
  | Skeleton.urlShortener =>
      log.emit Level.info "starting url-shortener"
        [LogArg.attr "env" cfg.Env, LogArg.attr "version" "123"]
  | Skeleton.apiGateway => log.emit Level.info "starting atanika" [LogArg.attr "env" cfg.Env]

/-- The line `slog.Info("Server started on port ...")`. -/
def startedEntry (sk : Skeleton) (cfg : Config) : List Event :=
  match sk with
  | Skeleton.urlShortener =>
      slogDefault.emit Level.info "Server started on port: %s" [LogArg.str cfg.HttpPort]
  | Skeleton.apiGateway =>
      slogDefault.emit Level.info "Server started on port:"
        [LogArg.str cfg.HttpPort, LogArg.str "successful"]

/-- The logger the `Failed to stop server` line goes through: the package-level
one in the url-shortener, the local `log` in the api gateway. -/
def stopLogger (sk : Skeleton) (log : Logger) : Logger :=
  match sk with
  | Skeleton.urlShortener => slogDefault
  | Skeleton.apiGateway => log

/-- The statement `if err := srv.Stop(ctx); err != nil { ... }`, after the call. -/
def stopErrEntry (sk : Skeleton) (log : Logger) : Option GoError → List Event
  | some e => (stopLogger sk log).emit Level.error "Failed to stop server: %v" [LogArg.err e]
  | none => []

/-- The statement `if err := db.Close(); err != nil { ... }` of the
url-shortener, after the call. -/
def closeErrEntry : Option GoError → List Event
  | some e => slogDefault.emit Level.error "Failed to close database: %v" [LogArg.err e]
  | none => []

/-- One statement of the main goroutine.  `config.MustLoad()` has returned
`w.cfg` (when it fails the process ends before `Run` does anything).  The
constructors of the api gateway between `defer pgDB.Close()` and the `go`
statement (`storage.NewRepository`, `service.NewService`, `handler.NewHandler`,
`NewRouter`, `server.NewServer`) only build values and have no event.  A log
call or `Close` on a nil pointer is a nil dereference, which ends the process.
The deferred calls run when the body is done, last registered first. -/
def mainStep (sk : Skeleton) (w : World) (s : State) : State :=
  match s.main with
  | MainPc.idle => { s with main := MainPc.atLogInfo (setupLogger w.cfg.Env) }
  | MainPc.atLogInfo l =>
      match l with
      | none => { s with proc := Proc.panicked }
      | some log =>
          { s with main := MainPc.atLogDebug log, trace := s.trace ++ startingEntry sk log w.cfg }
  | MainPc.atLogDebug log =>
      { s with main := MainPc.atPgNew log,
               trace := s.trace ++ log.emit Level.debug "debug messages are enabled" [] }
  | MainPc.atPgNew log =>
      let r := pg.New w.sqlxOpen (pgConfig w.cfg)
      { s with main := (match sk with
                        | Skeleton.urlShortener => MainPc.atPrintDb log r.1 r.2
                        | Skeleton.apiGateway => MainPc.atErrCheck log r.1 r.2),
               trace := s.trace ++ [Event.pgNewReturned r.1 r.2] }
  | MainPc.atPrintDb log db err =>
      { s with main := MainPc.atErrCheck log db err, trace := s.trace ++ [Event.printDb db] }
  | MainPc.atErrCheck log db err =>
      match err with
      | some e =>
          { s with main := MainPc.atExit,
                   trace := s.trace ++
                     log.emit Level.error "Failed to initialize database: %s" [LogArg.err e] }
      | none => { s with main := MainPc.atGo log db }
  | MainPc.atExit => { s with proc := Proc.exited 1 }
  | MainPc.atGo log db =>
      { s with main := MainPc.atSlogInfo log db, bg := BgPc.spawned,
               trace := s.trace ++ [Event.goSpawn] }
  | MainPc.atSlogInfo log db =>
      { s with main := MainPc.atNotify log db, trace := s.trace ++ startedEntry sk w.cfg }
  | MainPc.atNotify log db =>
      { s with main := MainPc.atRecv log db, quit := none, notified := [SIGTERM, SIGINT],
               trace := s.trace ++ [Event.notify [SIGTERM, SIGINT]] }
  | MainPc.atRecv log db =>
      match s.quit with
      | none => s
      | some sig =>
          { s with main := MainPc.atStop log db, quit := none,
                   trace := s.trace ++ [Event.received sig] }
  | MainPc.atStop log db =>
      { s with main := MainPc.inStop log db, trace := s.trace ++ [Event.stopCalled] }
  | MainPc.inStop log db =>
      { s with main := MainPc.atStopErrCheck log db w.stopResult,
               trace := s.trace ++ [Event.stopReturned w.stopResult] }
  | MainPc.atStopErrCheck log db err =>
      { s with main := (match sk with
                        | Skeleton.urlShortener => MainPc.atClose db
                        | Skeleton.apiGateway => MainPc.atReturn db),
               trace := s.trace ++ stopErrEntry sk log err }
  | MainPc.atClose db =>
      match db with
      | none => { s with proc := Proc.panicked }
      | some d =>
          { s with main := MainPc.atCloseErrCheck (some d) w.closeResult,
                   trace := s.trace ++ [Event.closeCalled, Event.closeReturned w.closeResult] }
  | MainPc.atCloseErrCheck db err =>
      { s with main := MainPc.atReturn db, trace := s.trace ++ closeErrEntry err }
  | MainPc.atReturn db =>
      match sk with
      | Skeleton.urlShortener =>
          { s with main := MainPc.done, trace := s.trace ++ [Event.ctxCancel],
                   proc := Proc.returned }
      | Skeleton.apiGateway =>
          { s with main := MainPc.atDeferredClose db, trace := s.trace ++ [Event.ctxCancel] }
  | MainPc.atDeferredClose db =>
      match db with
      | none => { s with proc := Proc.panicked }
      | some _ =>
          { s with main := MainPc.done,
                   trace := s.trace ++ [Event.closeCalled, Event.closeReturned w.closeResult],
                   proc := Proc.returned }
  | MainPc.done => s

/-- The body of the goroutine after `srv.Run()` has returned `err`:
`if !errors.Is(err, http.ErrServerClosed) { slog.Error(..., err.Error()) }`.
The result is the log entries and whether the body ran without a panic (calling
`Error()` on a nil error is a nil dereference). -/
def listenerTask (err : Option GoError) : List Event × Bool :=
  if errorsIs err (some ErrServerClosed) then ([], true)
  else
    match err with
    | none => ([], false)
    | some e =>
        (slogDefault.emit Level.error "Error occurred while running http server: %s\n"
          [LogArg.str e.Error], true)

/-- One step of the background goroutine. -/
def bgStep (s : State) : State :=
  match s.bg with
  | BgPc.spawned => { s with bg := BgPc.serving, trace := s.trace ++ [Event.srvRunCalled] }
  | BgPc.returned err =>
      let r := listenerTask err
      if r.2 then { s with bg := BgPc.finished, trace := s.trace ++ r.1 }
      else { s with bg := BgPc.finished, trace := s.trace ++ r.1, proc := Proc.panicked }
  | _ => s

/-- The listener's `ListenAndServe` returns `e` to the goroutine. -/
def listenerStep (e : GoError) (s : State) : State :=
  match s.bg with
  | BgPc.serving =>
      { s with bg := BgPc.returned (some e), trace := s.trace ++ [Event.srvRunReturned e] }
  | _ => s

/-- Delivery of a signal to the process.  `signal.Notify` relays a registered
signal to the channel without blocking: it is dropped when the one-slot buffer
is full.  A signal that is not registered (every signal before `signal.Notify`
has run, every signal but SIGTERM and SIGINT after it) gets its default
disposition: it ends the process on the spot, or it does nothing. -/
def signalStep (w : World) (sig : Signal) (s : State) : State :=
  if sig ∈ s.notified then
    match s.quit with
    | none => { s with quit := some sig }
    | some _ => s
  else if w.defaultEnds sig = true then { s with proc := Proc.killed sig }
  else s

/-- One step of the process; nothing moves once the process has ended. -/
def step (sk : Skeleton) (w : World) (s : State) (i : Input) : State :=
  match s.proc with
  | Proc.running =>
      match i with
      | Input.main => mainStep sk w s
      | Input.bg => bgStep s
      | Input.listenerReturns e => listenerStep e s
      | Input.signal sig => signalStep w sig s
  | _ => s

/-- The function `Run` of skeleton `sk` in world `w`, driven by the inputs. -/
def Run (sk : Skeleton) (w : World) (inputs : List Input) : State :=
  inputs.foldl (step sk w) init

end app

/-! ## Predicates on events and positions, for the proofs -/

/-- Whether an event is a log entry. -/
def Event.isLog : Event → Bool
  | Event.log _ _ _ _ => true
  | _ => false

/-- A list of events made of log entries only. -/
def OnlyLogs (es : List Event) : Prop := ∀ ev ∈ es, ev.isLog = true

namespace app

/-! ## Flags of the main goroutine's position -/

/-- The positions each skeleton can be at. -/
def pcValid (sk : Skeleton) : MainPc → Bool
  | MainPc.atPrintDb _ _ _ => decide (sk = Skeleton.urlShortener)
  | MainPc.atClose _ => decide (sk = Skeleton.urlShortener)
  | MainPc.atCloseErrCheck _ _ => decide (sk = Skeleton.urlShortener)
  | MainPc.atDeferredClose _ => decide (sk = Skeleton.apiGateway)
  | _ => true

/-- The handle held at a position is the one `pg.New` promised. -/
def dbOk : MainPc → Bool
  | MainPc.atPrintDb _ db err => db.isSome != err.isSome
  | MainPc.atErrCheck _ db err => db.isSome != err.isSome
  | MainPc.atGo _ db => db.isSome
  | MainPc.atSlogInfo _ db => db.isSome
  | MainPc.atNotify _ db => db.isSome
  | MainPc.atRecv _ db => db.isSome
  | MainPc.atStop _ db => db.isSome
  | MainPc.inStop _ db => db.isSome
  | MainPc.atStopErrCheck _ db _ => db.isSome
  | MainPc.atClose db => db.isSome
  | MainPc.atCloseErrCheck db _ => db.isSome
  | MainPc.atReturn db => db.isSome
  | MainPc.atDeferredClose db => db.isSome
  | _ => true

/-- The call `pg.New` has returned. -/
def pgDone : MainPc → Bool
  | MainPc.idle => false
  | MainPc.atLogInfo _ => false
  | MainPc.atLogDebug _ => false
  | MainPc.atPgNew _ => false
  | _ => true

/-- The position is on the path of a failed `pg.New`. -/
def failing : MainPc → Bool
  | MainPc.atPrintDb _ _ err => err.isSome
  | MainPc.atErrCheck _ _ err => err.isSome
  | MainPc.atExit => true
  | _ => false

/-- The `go` statement has been executed. -/
def spawnDone : MainPc → Bool
  | MainPc.idle => false
  | MainPc.atLogInfo _ => false
  | MainPc.atLogDebug _ => false
  | MainPc.atPgNew _ => false
  | MainPc.atPrintDb _ _ _ => false
  | MainPc.atErrCheck _ _ _ => false
  | MainPc.atExit => false
  | MainPc.atGo _ _ => false
  | _ => true

/-- The receive `<-quit` has completed. -/
def sigDone : MainPc → Bool
  | MainPc.atStop _ _ => true
  | MainPc.inStop _ _ => true
  | MainPc.atStopErrCheck _ _ _ => true
  | MainPc.atClose _ => true
  | MainPc.atCloseErrCheck _ _ => true
  | MainPc.atReturn _ => true
  | MainPc.atDeferredClose _ => true
  | MainPc.done => true
  | _ => false

/-- The call `srv.Stop(ctx)` has been made. -/
def stopCalledBy : MainPc → Bool
  | MainPc.atStop _ _ => false
  | pc => sigDone pc

/-- The call `srv.Stop(ctx)` has returned. -/
def stopDone : MainPc → Bool
  | MainPc.inStop _ _ => false
  | pc => stopCalledBy pc

/-- The call `signal.Notify(quit, ...)` has been made. -/
def notifyDone : MainPc → Bool
  | MainPc.atRecv _ _ => true
  | pc => sigDone pc

/-- The check of the error of `srv.Stop(ctx)` has been made. -/
def stopChecked : MainPc → Bool
  | MainPc.atStopErrCheck _ _ _ => false
  | pc => stopDone pc

/-- The error held at the check after `srv.Stop(ctx)` is the one it returned. -/
def stopErrOk (w : World) : MainPc → Bool
  | MainPc.atStopErrCheck _ _ err => decide (err = w.stopResult)
  | _ => true

/-- The handle's `Close` has been called. -/
def closeDone (sk : Skeleton) : MainPc → Bool
  | MainPc.atCloseErrCheck _ _ => true
  | MainPc.atReturn _ => decide (sk = Skeleton.urlShortener)
  | MainPc.done => true
  | _ => false

/-! ## Order of events in a trace -/

/-- Every event of the trace that satisfies `Q` has an event satisfying `P`
before it. -/
def Precedes (P Q : Event → Prop) (tr : List Event) : Prop :=
  ∀ pre c post, tr = pre ++ c :: post → Q c → ∃ e ∈ pre, P e

/-! ## The invariant of every execution -/

/-- Whether an event is the return of `srv.Stop`. -/
def isStopReturned (ev : Event) : Prop := ∃ err, ev = Event.stopReturned err

/-- Whether an event is the receive from the quit channel. -/
def isReceived (ev : Event) : Prop := ∃ sig, ev = Event.received sig

/-- Whether an event is the call of the handle's `Close`. -/
def isCloseCalled (ev : Event) : Prop := ev = Event.closeCalled

/-- Whether an event is the call of `srv.Stop`. -/
def isStopCalled (ev : Event) : Prop := ev = Event.stopCalled

/-- Whether an event is the error entry `Failed to stop server`. -/
def isStopErrLog : Event → Bool
  | Event.log _ lvl msg _ => decide (lvl = Level.error) && decide (msg = "Failed to stop server: %v")
  | _ => false

/-- Whether an event is the error entry `Failed to stop server` carrying `e`. -/
def isStopErrLogOf (e : GoError) (ev : Event) : Prop :=
  ∃ h, ev = Event.log h Level.error "Failed to stop server: %v" [LogArg.err e]

/-- What holds in every state an execution of `Run` reaches. -/
structure Inv (sk : Skeleton) (w : World) (s : State) : Prop where
  valid : pcValid sk s.main = true
  db : dbOk s.main = true
  errOk : stopErrOk w s.main = true
  bgOk : s.bg ≠ BgPc.returned none
  bgPre : spawnDone s.main = false → s.bg = BgPc.notSpawned
  quitOk : ∀ sig, s.quit = some sig → sig = SIGTERM ∨ sig = SIGINT
  notifiedOk : ∀ sig ∈ s.notified, sig = SIGTERM ∨ sig = SIGINT
  notifiedAt : notifyDone s.main = true → s.notified = [SIGTERM, SIGINT]
  closeCount : s.trace.count Event.closeCalled = if closeDone sk s.main then 1 else 0
  stopLogCount : s.trace.countP isStopErrLog =
    if stopChecked s.main && w.stopResult.isSome then 1 else 0
  stopSeen : stopDone s.main = true → ∃ e ∈ s.trace, isStopReturned e
  stopCallSeen : stopCalledBy s.main = true → ∃ e ∈ s.trace, isStopCalled e
  sigSeen : sigDone s.main = true → ∃ e ∈ s.trace, isReceived e
  noSpawn : spawnDone s.main = false → Event.goSpawn ∉ s.trace ∧ Event.srvRunCalled ∉ s.trace
  noSig : sigDone s.main = false → ∀ sig, Event.received sig ∉ s.trace
  noStop : stopCalledBy s.main = false → Event.stopCalled ∉ s.trace
  noPg : pgDone s.main = false → ∀ db err, Event.pgNewReturned db err ∉ s.trace
  pgFail : (∃ db e, Event.pgNewReturned db (some e) ∈ s.trace) → failing s.main = true
  stopVal : ∀ err, Event.stopReturned err ∈ s.trace → err = w.stopResult
  stopLogVal : ∀ ev ∈ s.trace, isStopErrLog ev = true →
    ∃ e, w.stopResult = some e ∧ isStopErrLogOf e ev
  closeOrder : Precedes isStopReturned isCloseCalled s.trace
  closeSig : Precedes isReceived isCloseCalled s.trace
  stopOrder : Precedes isStopCalled isStopReturned s.trace
  procExit : ∀ c, s.proc = Proc.exited c → c = 1 ∧ s.main = MainPc.atExit
  procPanic : s.proc = Proc.panicked → s.main = MainPc.atLogInfo none
  procRet : s.proc = Proc.returned ↔ s.main = MainPc.done

/-- The events the main goroutine's next statement appends to the trace. -/
def mainEvents (sk : Skeleton) (w : World) (s : State) : List Event :=
  match s.main with
  | MainPc.atLogInfo l =>
      match l with
      | none => []
      | some log => startingEntry sk log w.cfg
  | MainPc.atLogDebug log => log.emit Level.debug "debug messages are enabled" []
  | MainPc.atPgNew _ =>
      [Event.pgNewReturned (pg.New w.sqlxOpen (pgConfig w.cfg)).1
        (pg.New w.sqlxOpen (pgConfig w.cfg)).2]
  | MainPc.atPrintDb _ db _ => [Event.printDb db]
  | MainPc.atErrCheck log _ err =>
      match err with
      | some e => log.emit Level.error "Failed to initialize database: %s" [LogArg.err e]
      | none => []
  | MainPc.atGo _ _ => [Event.goSpawn]
  | MainPc.atSlogInfo _ _ => startedEntry sk w.cfg
  | MainPc.atNotify _ _ => [Event.notify [SIGTERM, SIGINT]]
  | MainPc.atRecv _ _ =>
      match s.quit with
      | none => []
      | some sig => [Event.received sig]
  | MainPc.atStop _ _ => [Event.stopCalled]
  | MainPc.inStop _ _ => [Event.stopReturned w.stopResult]
  | MainPc.atStopErrCheck log _ err => stopErrEntry sk log err
  | MainPc.atClose db =>
      match db with
      | none => []
      | some _ => [Event.closeCalled, Event.closeReturned w.closeResult]
  | MainPc.atCloseErrCheck _ err => closeErrEntry err
  | MainPc.atReturn _ => [Event.ctxCancel]
  | MainPc.atDeferredClose db =>
      match db with
      | none => []
      | some _ => [Event.closeCalled, Event.closeReturned w.closeResult]
  | _ => []

/-! ## Progress: the main goroutine finishes once it is past its only wait -/

/-- The position with the error of `srv.Stop(ctx)` blanked. -/
def eraseStopErr : MainPc → MainPc
  | MainPc.atStopErrCheck log db _ => MainPc.atStopErrCheck log db none
  | pc => pc

/-- The configuration of the concrete scenario. -/
def sampleCfg : Config :=
  { Env := "local", PgHost := "localhost", PgPort := "5432", PgUser := "t", PgName := "t",
    SSLMode := "disable", PgPassword := "t", HttpPort := "8080" }

/-- The default disposition on Linux of the signals that the documentation of
`os/signal` names as ending a Go program when nothing has asked for them:
SIGHUP, SIGINT, SIGTERM (exit) and SIGQUIT, SIGILL, SIGTRAP, SIGABRT, SIGSTKFLT,
SIGSYS (exit with a stack dump); and SIGKILL, which no program can catch. -/
def goDefaultEnds (sig : Signal) : Bool :=
  decide (sig ∈ [SIGHUP, SIGINT, 3, 4, 5, 6, SIGKILL, SIGTERM, 16, 31])

/-- A world in which the handle is acquired, the drain times out and the release
of the handle fails. -/
def sampleWorld : World :=
  { cfg := sampleCfg, sqlxOpen := fun _ _ => Except.ok { id := 1 },
    stopResult := some GoError.deadlineExceeded,
    closeResult := some (GoError.other "close failed"), defaultEnds := goDefaultEnds }

/-- A world in which only the release of the handle fails. -/
def closeFailWorld : World :=
  { cfg := sampleCfg, sqlxOpen := fun _ _ => Except.ok { id := 1 }, stopResult := none,
    closeResult := some (GoError.other "close failed"), defaultEnds := goDefaultEnds }

/-- A world in which `sqlx.Open` fails. -/
def openFailWorld : World :=
  { cfg := sampleCfg, sqlxOpen := fun _ _ => Except.error (GoError.other "unknown driver"),
    stopResult := none, closeResult := none, defaultEnds := goDefaultEnds }

/-- Start-up, then SIGINT, up to the receive. -/
def untilSignal : List Input :=
  [Input.main, Input.main, Input.main, Input.main, Input.main, Input.main, Input.main, Input.bg,
    Input.main, Input.main, Input.signal SIGINT, Input.main]

/-- The shutdown, with the listener returning in the middle of it. -/
def shutdownInputs : List Input :=
  [Input.main, Input.listenerReturns GoError.errServerClosed, Input.main, Input.main, Input.bg,
    Input.main, Input.main, Input.main, Input.main, Input.main]

/-- Start-up until `pg.New` has returned. -/
def untilPgNew : List Input := [Input.main, Input.main, Input.main, Input.main]

/-- Start-up until the goroutine is inside `srv.Run()`. -/
def untilServing : List Input :=
  [Input.main, Input.main, Input.main, Input.main, Input.main, Input.main, Input.main, Input.bg]

/-- The error of a listener that cannot bind its port. -/
def listenFailure : GoError := GoError.other "listen tcp :8080: bind: address already in use"

/-- An error that wraps `http.ErrServerClosed`. -/
def wrappedClosed : GoError := fmtErrorfW "serve" ErrServerClosed

/-- The state of the url-shortener when its `srv.Run()` has just returned `e`. -/
def listenerReturned (e : GoError) : State :=
  Run Skeleton.urlShortener sampleWorld (untilServing ++ [Input.listenerReturns e])

/-- The entry the goroutine writes for the error `e` of `srv.Run()`. -/
def serverErrEntry (e : GoError) : Event :=
  Event.log HandlerKind.default Level.error "Error occurred while running http server: %s\n"
    [LogArg.str e.Error]

end app

end Atanika

/-! # Theorems -/

namespace Atanika

theorem errorsIsLoop_self (e : GoError) : errorsIsLoop e e = true := by
  cases e <;> simp [errorsIsLoop]

theorem setupLogger_isSome_iff (env : String) :
    (app.setupLogger env).isSome = true ↔ env = "local" ∨ env = "dev" ∨ env = "prod" := by
  unfold app.setupLogger app.envLocal app.envDev app.envProd
  by_cases h1 : env = "local"
  · simp [h1]
  · by_cases h2 : env = "dev"
    · simp [h2]
    · by_cases h3 : env = "prod"
      · simp [h3]
      · simp [h1, h2, h3]

theorem split_at_sep {sep : Char} :
    ∀ (xs ys r1 r2 : List Char), sep ∉ xs → sep ∉ ys →
      xs ++ sep :: r1 = ys ++ sep :: r2 → xs = ys ∧ r1 = r2
  | [], [], r1, r2, _, _, h => by simpa using h
  | [], y :: ys, r1, r2, _, hy, h => by
      simp at h
      exact absurd h.1 (by intro hc; exact hy (by simp [hc]))
  | x :: xs, [], r1, r2, hx, _, h => by
      simp at h
      exact absurd h.1 (by intro hc; exact hx (by simp [hc]))
  | x :: xs, y :: ys, r1, r2, hx, hy, h => by
      simp at h
      have ih := split_at_sep xs ys r1 r2 (fun hc => hx (List.mem_cons_of_mem _ hc))
        (fun hc => hy (List.mem_cons_of_mem _ hc)) h.2
      exact ⟨by rw [h.1, ih.1], ih.2⟩

theorem connString_data (cfg : pg.Config) :
    (pg.connString cfg).data =
      "host=".data ++ (cfg.Host.data ++ ' ' :: ("port=".data ++ (cfg.Port.data ++ ' ' ::
        ("user=".data ++ (cfg.Username.data ++ ' ' :: ("dbname=".data ++ (cfg.DBName.data ++ ' ' ::
          ("password=".data ++ (cfg.Password.data ++ ' ' ::
            ("sslmode=".data ++ cfg.SSLMode.data)))))))))) := by
  have e1 : " port=".data = ' ' :: "port=".data := rfl
  have e2 : " user=".data = ' ' :: "user=".data := rfl
  have e3 : " dbname=".data = ' ' :: "dbname=".data := rfl
  have e4 : " password=".data = ' ' :: "password=".data := rfl
  have e5 : " sslmode=".data = ' ' :: "sslmode=".data := rfl
  simp only [pg.connString, String.data_append, e1, e2, e3, e4, e5, List.append_assoc,
    List.cons_append]

theorem connString_injective (c1 c2 : pg.Config)
    (h1 : ' ' ∉ c1.Host.data ∧ ' ' ∉ c1.Port.data ∧ ' ' ∉ c1.Username.data ∧
      ' ' ∉ c1.DBName.data ∧ ' ' ∉ c1.Password.data ∧ ' ' ∉ c1.SSLMode.data)
    (h2 : ' ' ∉ c2.Host.data ∧ ' ' ∉ c2.Port.data ∧ ' ' ∉ c2.Username.data ∧
      ' ' ∉ c2.DBName.data ∧ ' ' ∉ c2.Password.data ∧ ' ' ∉ c2.SSLMode.data)
    (h : pg.connString c1 = pg.connString c2) : c1 = c2 := by
  have hd := congrArg String.data h
  rw [connString_data, connString_data] at hd
  obtain ⟨a1, a2, a3, a4, a5, _⟩ := h1
  obtain ⟨b1, b2, b3, b4, b5, _⟩ := h2
  have s1 := split_at_sep _ _ _ _ a1 b1 (List.append_cancel_left hd)
  have s2 := split_at_sep _ _ _ _ a2 b2 (List.append_cancel_left s1.2)
  have s3 := split_at_sep _ _ _ _ a3 b3 (List.append_cancel_left s2.2)
  have s4 := split_at_sep _ _ _ _ a4 b4 (List.append_cancel_left s3.2)
  have s5 := split_at_sep _ _ _ _ a5 b5 (List.append_cancel_left s4.2)
  have s6 := List.append_cancel_left s5.2
  cases c1; cases c2
  simp only [pg.Config.mk.injEq]
  exact ⟨String.ext s1.1, String.ext s2.1, String.ext s3.1, String.ext s4.1, String.ext s5.1,
    String.ext s6⟩

theorem onlyLogs_nil : OnlyLogs [] := by
  intro ev h
  cases h

theorem onlyLogs_emit (l : Logger) (lvl : Level) (msg : String) (args : List LogArg) :
    OnlyLogs (l.emit lvl msg args) := by
  intro ev h
  unfold Logger.emit at h
  split at h
  · simp at h
    subst h
    rfl
  · cases h

theorem OnlyLogs.not_mem {es : List Event} (h : OnlyLogs es) {ev : Event}
    (hev : ev.isLog = false) : ev ∉ es := by
  intro hm
  have := h ev hm
  rw [hev] at this
  cases this

theorem OnlyLogs.count_eq_zero {es : List Event} (h : OnlyLogs es) {ev : Event}
    (hev : ev.isLog = false) : es.count ev = 0 :=
  List.count_eq_zero_of_not_mem (h.not_mem hev)

namespace app

theorem onlyLogs_startingEntry (sk : Skeleton) (log : Logger) (cfg : Config) :
    OnlyLogs (startingEntry sk log cfg) := by
  cases sk <;> exact onlyLogs_emit _ _ _ _

theorem onlyLogs_startedEntry (sk : Skeleton) (cfg : Config) :
    OnlyLogs (startedEntry sk cfg) := by
  cases sk <;> exact onlyLogs_emit _ _ _ _

theorem onlyLogs_stopErrEntry (sk : Skeleton) (log : Logger) (err : Option GoError) :
    OnlyLogs (stopErrEntry sk log err) := by
  cases err
  · exact onlyLogs_nil
  · exact onlyLogs_emit _ _ _ _

theorem onlyLogs_closeErrEntry (err : Option GoError) : OnlyLogs (closeErrEntry err) := by
  cases err
  · exact onlyLogs_nil
  · exact onlyLogs_emit _ _ _ _

theorem onlyLogs_listenerTask (err : Option GoError) : OnlyLogs (listenerTask err).1 := by
  cases err with
  | none => simp [listenerTask, errorsIs, OnlyLogs]
  | some e =>
      unfold listenerTask
      split
      · exact onlyLogs_nil
      · exact onlyLogs_emit slogDefault Level.error _ [LogArg.str e.Error]

theorem precedes_nil (P Q : Event → Prop) : Precedes P Q [] := by
  intro pre c post h
  cases pre <;> simp at h

theorem precedes_append {P Q : Event → Prop} {tr es : List Event}
    (h : Precedes P Q tr) (hes : ∀ c ∈ es, Q c → ∃ e ∈ tr, P e) : Precedes P Q (tr ++ es) := by
  intro pre c post heq hQ
  rcases List.append_eq_append_iff.mp heq with ⟨a, ha, hb⟩ | ⟨b, hb, hc⟩
  · obtain ⟨e, he, hP⟩ := hes c (by rw [hb]; simp) hQ
    exact ⟨e, by rw [ha]; simp [he], hP⟩
  · cases b with
    | nil =>
        simp at hb hc
        obtain ⟨e, he, hP⟩ := hes c (by rw [← hc]; simp) hQ
        exact ⟨e, by rw [← hb]; exact he, hP⟩
    | cons x b =>
        simp at hc
        rw [← hc.1] at hb
        exact h pre c b hb hQ

theorem Precedes.index {P Q : Event → Prop} {tr : List Event} (h : Precedes P Q tr)
    (n : Nat) (c : Event) (hn : tr.get? n = some c) (hQ : Q c) :
    ∃ m, m < n ∧ ∃ e, tr.get? m = some e ∧ P e := by
  have hlt : n < tr.length := by
    by_contra hge
    rw [List.get?_eq_none.mpr (by omega)] at hn
    cases hn
  have hsplit : tr = tr.take n ++ c :: tr.drop (n + 1) := by
    have hc : tr[n] = c := by
      rw [List.get?_eq_getElem?, List.getElem?_eq_getElem hlt] at hn
      exact Option.some.inj hn
    rw [← hc, ← List.drop_eq_getElem_cons hlt, List.take_append_drop]
  obtain ⟨e, he, hP⟩ := h _ _ _ hsplit hQ
  obtain ⟨m, hm, hme⟩ := List.getElem_of_mem he
  have hm2 : m < n := by
    have := hm
    rw [List.length_take] at this
    omega
  refine ⟨m, hm2, e, ?_, hP⟩
  rw [List.get?_eq_getElem?, List.getElem?_eq_getElem (by omega)]
  rw [List.getElem_take] at hme
  rw [hme]

theorem inv_init (sk : Skeleton) (w : World) : Inv sk w init := by
  constructor <;> simp [init, pcValid, dbOk, spawnDone, closeDone, stopDone, sigDone,
    stopCalledBy, pgDone, failing, precedes_nil, stopErrOk, stopChecked, notifyDone]

theorem pg_New_dbOk (sqlxOpen : String → String → Except GoError DB) (cfg : pg.Config) :
    ((pg.New sqlxOpen cfg).1.isSome != (pg.New sqlxOpen cfg).2.isSome) = true := by
  unfold pg.New
  split <;> rfl

@[simp] theorem not_mem_emit {ev : Event} (l : Logger) (lvl : Level) (msg : String)
    (args : List LogArg) (hev : ev.isLog = false) : ev ∈ l.emit lvl msg args ↔ False :=
  iff_false_intro ((onlyLogs_emit l lvl msg args).not_mem hev)

@[simp] theorem not_mem_startingEntry {ev : Event} (sk : Skeleton) (log : Logger) (cfg : Config)
    (hev : ev.isLog = false) : ev ∈ startingEntry sk log cfg ↔ False :=
  iff_false_intro ((onlyLogs_startingEntry sk log cfg).not_mem hev)

@[simp] theorem not_mem_startedEntry {ev : Event} (sk : Skeleton) (cfg : Config)
    (hev : ev.isLog = false) : ev ∈ startedEntry sk cfg ↔ False :=
  iff_false_intro ((onlyLogs_startedEntry sk cfg).not_mem hev)

@[simp] theorem not_mem_stopErrEntry {ev : Event} (sk : Skeleton) (log : Logger)
    (err : Option GoError) (hev : ev.isLog = false) : ev ∈ stopErrEntry sk log err ↔ False :=
  iff_false_intro ((onlyLogs_stopErrEntry sk log err).not_mem hev)

@[simp] theorem not_mem_closeErrEntry {ev : Event} (err : Option GoError)
    (hev : ev.isLog = false) : ev ∈ closeErrEntry err ↔ False :=
  iff_false_intro ((onlyLogs_closeErrEntry err).not_mem hev)

@[simp] theorem not_mem_listenerTask {ev : Event} (err : Option GoError)
    (hev : ev.isLog = false) : ev ∈ (listenerTask err).1 ↔ False :=
  iff_false_intro ((onlyLogs_listenerTask err).not_mem hev)

@[simp] theorem count_close_emit (l : Logger) (lvl : Level) (msg : String)
    (args : List LogArg) : (l.emit lvl msg args).count Event.closeCalled = 0 :=
  (onlyLogs_emit l lvl msg args).count_eq_zero rfl

@[simp] theorem count_close_startingEntry (sk : Skeleton) (log : Logger) (cfg : Config) :
    (startingEntry sk log cfg).count Event.closeCalled = 0 :=
  (onlyLogs_startingEntry sk log cfg).count_eq_zero rfl

@[simp] theorem count_close_startedEntry (sk : Skeleton) (cfg : Config) :
    (startedEntry sk cfg).count Event.closeCalled = 0 :=
  (onlyLogs_startedEntry sk cfg).count_eq_zero rfl

@[simp] theorem count_close_stopErrEntry (sk : Skeleton) (log : Logger) (err : Option GoError) :
    (stopErrEntry sk log err).count Event.closeCalled = 0 :=
  (onlyLogs_stopErrEntry sk log err).count_eq_zero rfl

@[simp] theorem count_close_closeErrEntry (err : Option GoError) :
    (closeErrEntry err).count Event.closeCalled = 0 :=
  (onlyLogs_closeErrEntry err).count_eq_zero rfl

@[simp] theorem count_close_listenerTask (err : Option GoError) :
    (listenerTask err).1.count Event.closeCalled = 0 :=
  (onlyLogs_listenerTask err).count_eq_zero rfl

theorem countP_stopErr_emit (l : Logger) (lvl : Level) (msg : String) (args : List LogArg)
    (h : msg ≠ "Failed to stop server: %v") : (l.emit lvl msg args).countP isStopErrLog = 0 := by
  unfold Logger.emit
  split <;> simp [isStopErrLog, h]

@[simp] theorem countP_stopErr_startingEntry (sk : Skeleton) (log : Logger) (cfg : Config) :
    (startingEntry sk log cfg).countP isStopErrLog = 0 := by
  cases sk <;> exact countP_stopErr_emit _ _ _ _ (by decide)

@[simp] theorem countP_stopErr_startedEntry (sk : Skeleton) (cfg : Config) :
    (startedEntry sk cfg).countP isStopErrLog = 0 := by
  cases sk <;> exact countP_stopErr_emit _ _ _ _ (by decide)

@[simp] theorem countP_stopErr_closeErrEntry (err : Option GoError) :
    (closeErrEntry err).countP isStopErrLog = 0 := by
  cases err
  · rfl
  · exact countP_stopErr_emit _ _ _ _ (by decide)

@[simp] theorem countP_stopErr_listenerTask (err : Option GoError) :
    (listenerTask err).1.countP isStopErrLog = 0 := by
  cases err with
  | none => simp [listenerTask, errorsIs]
  | some e =>
      unfold listenerTask
      split
      · rfl
      · exact countP_stopErr_emit slogDefault Level.error _ [LogArg.str e.Error] (by decide)

@[simp] theorem countP_stopErr_stopErrEntry (sk : Skeleton) (log : Logger)
    (err : Option GoError) :
    (stopErrEntry sk log err).countP isStopErrLog = if err.isSome then 1 else 0 := by
  cases err with
  | none => rfl
  | some e =>
      have hl : (stopLogger sk log).level.toInt ≤ Level.error.toInt := by
        cases hlv : (stopLogger sk log).level <;> simp [Level.toInt]
      simp [stopErrEntry, Logger.emit, hl, isStopErrLog]

theorem mainStep_trace (sk : Skeleton) (w : World) (s : State) :
    (mainStep sk w s).trace = s.trace ++ mainEvents sk w s := by
  rcases s with ⟨main, bg, quit, notified, trace, proc⟩
  cases sk <;> cases main <;> simp only [mainStep, mainEvents] <;> (try split) <;> simp

theorem close_mem_mainEvents (sk : Skeleton) (w : World) (s : State)
    (h : Event.closeCalled ∈ mainEvents sk w s) : stopDone s.main = true ∧ sigDone s.main = true := by
  rcases s with ⟨main, bg, quit, notified, trace, proc⟩
  revert h
  cases sk <;> cases main <;> simp only [mainEvents] <;> (try split) <;>
    simp [Event.isLog, stopDone, stopCalledBy, sigDone]

theorem mainStep_valid (sk : Skeleton) (w : World) (s : State)
    (h : pcValid sk s.main = true) : pcValid sk (mainStep sk w s).main = true := by
  rcases s with ⟨main, bg, quit, notified, trace, proc⟩
  revert h
  cases sk <;> cases main <;> simp only [mainStep] <;> (try split) <;> simp [pcValid]

theorem mainStep_db (sk : Skeleton) (w : World) (s : State)
    (h : dbOk s.main = true) : dbOk (mainStep sk w s).main = true := by
  rcases s with ⟨main, bg, quit, notified, trace, proc⟩
  have hnew := pg_New_dbOk w.sqlxOpen (pgConfig w.cfg)
  revert h
  cases sk <;> cases main <;> simp only [mainStep] <;> (try split) <;> simp_all [dbOk]

theorem mainStep_bgOk (sk : Skeleton) (w : World) (s : State)
    (h : s.bg ≠ BgPc.returned none) : (mainStep sk w s).bg ≠ BgPc.returned none := by
  rcases s with ⟨main, bg, quit, notified, trace, proc⟩
  revert h
  cases sk <;> cases main <;> simp only [mainStep] <;> (try split) <;> simp

theorem mainStep_bgPre (sk : Skeleton) (w : World) (s : State)
    (h : spawnDone s.main = false → s.bg = BgPc.notSpawned) :
    spawnDone (mainStep sk w s).main = false → (mainStep sk w s).bg = BgPc.notSpawned := by
  rcases s with ⟨main, bg, quit, notified, trace, proc⟩
  revert h
  cases sk <;> cases main <;> simp only [mainStep] <;> (try split) <;> simp [spawnDone]

theorem mainStep_quitOk (sk : Skeleton) (w : World) (s : State)
    (h : ∀ sig, s.quit = some sig → sig = SIGTERM ∨ sig = SIGINT) :
    ∀ sig, (mainStep sk w s).quit = some sig → sig = SIGTERM ∨ sig = SIGINT := by
  rcases s with ⟨main, bg, quit, notified, trace, proc⟩
  revert h
  cases sk <;> cases main <;> simp only [mainStep] <;> (try split) <;> simp

theorem mainStep_notifiedOk (sk : Skeleton) (w : World) (s : State)
    (h : ∀ sig ∈ s.notified, sig = SIGTERM ∨ sig = SIGINT) :
    ∀ sig ∈ (mainStep sk w s).notified, sig = SIGTERM ∨ sig = SIGINT := by
  rcases s with ⟨main, bg, quit, notified, trace, proc⟩
  revert h
  cases sk <;> cases main <;> simp only [mainStep] <;> (try split) <;> simp

theorem count_close_pair (r : Option GoError) :
    [Event.closeCalled, Event.closeReturned r].count Event.closeCalled = 1 := by
  rw [List.count_cons_self, List.count_eq_zero_of_not_mem]
  simp

theorem count_close_mainEvents (sk : Skeleton) (w : World) (s : State)
    (hv : pcValid sk s.main = true) :
    ((mainEvents sk w s).count Event.closeCalled + if closeDone sk s.main then 1 else 0) =
      if closeDone sk (mainStep sk w s).main then 1 else 0 := by
  rcases s with ⟨main, bg, quit, notified, trace, proc⟩
  revert hv
  cases sk <;> cases main <;>
    simp [mainStep, mainEvents, pcValid, closeDone, count_close_pair]
  all_goals (split <;> simp [count_close_pair, closeDone])

theorem mainStep_closeCount (sk : Skeleton) (w : World) (s : State)
    (hv : pcValid sk s.main = true)
    (h : s.trace.count Event.closeCalled = if closeDone sk s.main then 1 else 0) :
    (mainStep sk w s).trace.count Event.closeCalled =
      if closeDone sk (mainStep sk w s).main then 1 else 0 := by
  rw [mainStep_trace, List.count_append, h, ← count_close_mainEvents sk w s hv, Nat.add_comm]

theorem stopDone_mainStep (sk : Skeleton) (w : World) (s : State)
    (h : stopDone (mainStep sk w s).main = true) :
    stopDone s.main = true ∨ Event.stopReturned w.stopResult ∈ mainEvents sk w s := by
  rcases s with ⟨main, bg, quit, notified, trace, proc⟩
  revert h
  cases sk <;> cases main <;> simp only [mainStep, mainEvents] <;> (try split) <;>
    simp [stopDone, stopCalledBy, sigDone]

theorem mainStep_stopSeen (sk : Skeleton) (w : World) (s : State)
    (h : stopDone s.main = true → ∃ e ∈ s.trace, isStopReturned e) :
    stopDone (mainStep sk w s).main = true → ∃ e ∈ (mainStep sk w s).trace, isStopReturned e := by
  intro hd
  rw [mainStep_trace]
  rcases stopDone_mainStep sk w s hd with h1 | h1
  · obtain ⟨e, he, hP⟩ := h h1
    exact ⟨e, List.mem_append_left _ he, hP⟩
  · exact ⟨_, List.mem_append_right _ h1, ⟨_, rfl⟩⟩

theorem sigDone_mainStep (sk : Skeleton) (w : World) (s : State)
    (h : sigDone (mainStep sk w s).main = true) :
    sigDone s.main = true ∨ ∃ sig, Event.received sig ∈ mainEvents sk w s := by
  rcases s with ⟨main, bg, quit, notified, trace, proc⟩
  revert h
  cases sk <;> cases main <;> simp only [mainStep, mainEvents] <;> (try split) <;>
    simp [sigDone]

theorem mainStep_sigSeen (sk : Skeleton) (w : World) (s : State)
    (h : sigDone s.main = true → ∃ e ∈ s.trace, isReceived e) :
    sigDone (mainStep sk w s).main = true → ∃ e ∈ (mainStep sk w s).trace, isReceived e := by
  intro hd
  rw [mainStep_trace]
  rcases sigDone_mainStep sk w s hd with h1 | ⟨sig, h1⟩
  · obtain ⟨e, he, hP⟩ := h h1
    exact ⟨e, List.mem_append_left _ he, hP⟩
  · exact ⟨_, List.mem_append_right _ h1, ⟨_, rfl⟩⟩

theorem spawnDone_mainStep (sk : Skeleton) (w : World) (s : State)
    (h : spawnDone (mainStep sk w s).main = false) :
    spawnDone s.main = false ∧ Event.goSpawn ∉ mainEvents sk w s ∧
      Event.srvRunCalled ∉ mainEvents sk w s := by
  rcases s with ⟨main, bg, quit, notified, trace, proc⟩
  revert h
  cases sk <;> cases main <;> simp only [mainStep, mainEvents] <;> (try split) <;>
    simp [spawnDone, Event.isLog]

theorem mainStep_noSpawn (sk : Skeleton) (w : World) (s : State)
    (h : spawnDone s.main = false → Event.goSpawn ∉ s.trace ∧ Event.srvRunCalled ∉ s.trace) :
    spawnDone (mainStep sk w s).main = false →
      Event.goSpawn ∉ (mainStep sk w s).trace ∧ Event.srvRunCalled ∉ (mainStep sk w s).trace := by
  intro hd
  obtain ⟨h1, h2, h3⟩ := spawnDone_mainStep sk w s hd
  obtain ⟨h4, h5⟩ := h h1
  rw [mainStep_trace]
  simp [h2, h3, h4, h5]

theorem stopCalledBy_mainStep (sk : Skeleton) (w : World) (s : State)
    (h : stopCalledBy (mainStep sk w s).main = false) :
    stopCalledBy s.main = false ∧ Event.stopCalled ∉ mainEvents sk w s := by
  rcases s with ⟨main, bg, quit, notified, trace, proc⟩
  revert h
  cases sk <;> cases main <;> simp only [mainStep, mainEvents] <;> (try split) <;>
    simp [stopCalledBy, sigDone, Event.isLog]

theorem mainStep_noStop (sk : Skeleton) (w : World) (s : State)
    (h : stopCalledBy s.main = false → Event.stopCalled ∉ s.trace) :
    stopCalledBy (mainStep sk w s).main = false → Event.stopCalled ∉ (mainStep sk w s).trace := by
  intro hd
  obtain ⟨h1, h2⟩ := stopCalledBy_mainStep sk w s hd
  rw [mainStep_trace]
  simp [h2, h h1]

theorem pgDone_mainStep (sk : Skeleton) (w : World) (s : State)
    (h : pgDone (mainStep sk w s).main = false) :
    pgDone s.main = false ∧ ∀ db err, Event.pgNewReturned db err ∉ mainEvents sk w s := by
  rcases s with ⟨main, bg, quit, notified, trace, proc⟩
  revert h
  cases sk <;> cases main <;> simp only [mainStep, mainEvents] <;> (try split) <;>
    simp [pgDone, Event.isLog]

theorem mainStep_noPg (sk : Skeleton) (w : World) (s : State)
    (h : pgDone s.main = false → ∀ db err, Event.pgNewReturned db err ∉ s.trace) :
    pgDone (mainStep sk w s).main = false →
      ∀ db err, Event.pgNewReturned db err ∉ (mainStep sk w s).trace := by
  intro hd db err
  obtain ⟨h1, h2⟩ := pgDone_mainStep sk w s hd
  rw [mainStep_trace]
  simp [h2 db err, h h1 db err]

theorem failing_mainStep (sk : Skeleton) (w : World) (s : State) :
    (failing s.main = true → failing (mainStep sk w s).main = true) ∧
      ∀ db e, Event.pgNewReturned db (some e) ∈ mainEvents sk w s →
        failing (mainStep sk w s).main = true := by
  rcases s with ⟨main, bg, quit, notified, trace, proc⟩
  cases sk <;> cases main <;> simp only [mainStep, mainEvents] <;> (try split) <;>
    simp [failing, Event.isLog]
  all_goals
    intro db e _ h2
    rw [← h2]
    rfl

theorem mainStep_pgFail (sk : Skeleton) (w : World) (s : State)
    (h : (∃ db e, Event.pgNewReturned db (some e) ∈ s.trace) → failing s.main = true) :
    (∃ db e, Event.pgNewReturned db (some e) ∈ (mainStep sk w s).trace) →
      failing (mainStep sk w s).main = true := by
  rintro ⟨db, e, hm⟩
  rw [mainStep_trace, List.mem_append] at hm
  rcases hm with hm | hm
  · exact (failing_mainStep sk w s).1 (h ⟨db, e, hm⟩)
  · exact (failing_mainStep sk w s).2 db e hm

theorem mainStep_closeOrder (sk : Skeleton) (w : World) (s : State)
    (hs : stopDone s.main = true → ∃ e ∈ s.trace, isStopReturned e)
    (h : Precedes isStopReturned isCloseCalled s.trace) :
    Precedes isStopReturned isCloseCalled (mainStep sk w s).trace := by
  rw [mainStep_trace]
  refine precedes_append h (fun c hc hQ => hs ?_)
  rw [hQ] at hc
  exact (close_mem_mainEvents sk w s hc).1

theorem mainStep_closeSig (sk : Skeleton) (w : World) (s : State)
    (hs : sigDone s.main = true → ∃ e ∈ s.trace, isReceived e)
    (h : Precedes isReceived isCloseCalled s.trace) :
    Precedes isReceived isCloseCalled (mainStep sk w s).trace := by
  rw [mainStep_trace]
  refine precedes_append h (fun c hc hQ => hs ?_)
  rw [hQ] at hc
  exact (close_mem_mainEvents sk w s hc).2

theorem mainStep_proc (sk : Skeleton) (w : World) (s : State) (hp : s.proc = Proc.running)
    (hdb : dbOk s.main = true) (hv : pcValid sk s.main = true) (hd : s.main ≠ MainPc.done) :
    (∀ c, (mainStep sk w s).proc = Proc.exited c → c = 1 ∧ (mainStep sk w s).main = MainPc.atExit) ∧
      ((mainStep sk w s).proc = Proc.panicked → (mainStep sk w s).main = MainPc.atLogInfo none) ∧
      ((mainStep sk w s).proc = Proc.returned ↔ (mainStep sk w s).main = MainPc.done) := by
  rcases s with ⟨main, bg, quit, notified, trace, proc⟩
  simp only at hp
  subst hp
  revert hdb hv hd
  cases sk <;> cases main <;> simp only [mainStep] <;> (try split) <;>
    simp [dbOk, pcValid]

theorem mainStep_errOk (sk : Skeleton) (w : World) (s : State) :
    stopErrOk w (mainStep sk w s).main = true := by
  rcases s with ⟨main, bg, quit, notified, trace, proc⟩
  cases sk <;> cases main <;> simp only [mainStep] <;> (try split) <;> simp [stopErrOk]

theorem mainStep_errOk_of (sk : Skeleton) (w : World) (s : State)
    (h : stopErrOk w s.main = true) : stopErrOk w (mainStep sk w s).main = true := by
  rcases s with ⟨main, bg, quit, notified, trace, proc⟩
  revert h
  cases sk <;> cases main <;> simp only [mainStep] <;> (try split) <;> simp [stopErrOk]

theorem countP_stopErr_mainEvents (sk : Skeleton) (w : World) (s : State)
    (he : stopErrOk w s.main = true) :
    ((mainEvents sk w s).countP isStopErrLog +
        if stopChecked s.main && w.stopResult.isSome then 1 else 0) =
      if stopChecked (mainStep sk w s).main && w.stopResult.isSome then 1 else 0 := by
  rcases s with ⟨main, bg, quit, notified, trace, proc⟩
  revert he
  cases sk <;> cases main <;>
    simp [mainStep, mainEvents, stopErrOk, stopChecked, stopDone, stopCalledBy, sigDone,
      isStopErrLog, countP_stopErr_emit]
  all_goals (first | (split <;> simp [isStopErrLog, countP_stopErr_emit, stopChecked, stopDone, stopCalledBy, sigDone]) | (intro h; simp [h]))

theorem mainStep_stopLogCount (sk : Skeleton) (w : World) (s : State)
    (he : stopErrOk w s.main = true)
    (h : s.trace.countP isStopErrLog =
      if stopChecked s.main && w.stopResult.isSome then 1 else 0) :
    (mainStep sk w s).trace.countP isStopErrLog =
      if stopChecked (mainStep sk w s).main && w.stopResult.isSome then 1 else 0 := by
  rw [mainStep_trace, List.countP_append, h, ← countP_stopErr_mainEvents sk w s he, Nat.add_comm]

theorem stopCalledBy_mainStep_true (sk : Skeleton) (w : World) (s : State)
    (h : stopCalledBy (mainStep sk w s).main = true) :
    stopCalledBy s.main = true ∨ Event.stopCalled ∈ mainEvents sk w s := by
  rcases s with ⟨main, bg, quit, notified, trace, proc⟩
  revert h
  cases sk <;> cases main <;> simp only [mainStep, mainEvents] <;> (try split) <;>
    simp [stopCalledBy, sigDone]

theorem mainStep_stopCallSeen (sk : Skeleton) (w : World) (s : State)
    (h : stopCalledBy s.main = true → ∃ e ∈ s.trace, isStopCalled e) :
    stopCalledBy (mainStep sk w s).main = true →
      ∃ e ∈ (mainStep sk w s).trace, isStopCalled e := by
  intro hd
  rw [mainStep_trace]
  rcases stopCalledBy_mainStep_true sk w s hd with h1 | h1
  · obtain ⟨e, he, hP⟩ := h h1
    exact ⟨e, List.mem_append_left _ he, hP⟩
  · exact ⟨_, List.mem_append_right _ h1, rfl⟩

theorem sigDone_mainStep_false (sk : Skeleton) (w : World) (s : State)
    (h : sigDone (mainStep sk w s).main = false) :
    sigDone s.main = false ∧ ∀ sig, Event.received sig ∉ mainEvents sk w s := by
  rcases s with ⟨main, bg, quit, notified, trace, proc⟩
  revert h
  cases sk <;> cases main <;> simp only [mainStep, mainEvents] <;> (try split) <;>
    simp [sigDone, Event.isLog]

theorem mainStep_noSig (sk : Skeleton) (w : World) (s : State)
    (h : sigDone s.main = false → ∀ sig, Event.received sig ∉ s.trace) :
    sigDone (mainStep sk w s).main = false →
      ∀ sig, Event.received sig ∉ (mainStep sk w s).trace := by
  intro hd sig
  obtain ⟨h1, h2⟩ := sigDone_mainStep_false sk w s hd
  rw [mainStep_trace]
  simp [h2 sig, h h1 sig]

theorem stopReturned_mem_mainEvents (sk : Skeleton) (w : World) (s : State) (err : Option GoError)
    (h : Event.stopReturned err ∈ mainEvents sk w s) :
    err = w.stopResult ∧ stopCalledBy s.main = true := by
  rcases s with ⟨main, bg, quit, notified, trace, proc⟩
  revert h
  cases sk <;> cases main <;> simp only [mainEvents] <;> (try split) <;>
    simp [Event.isLog, stopCalledBy, sigDone]

theorem mainStep_stopVal (sk : Skeleton) (w : World) (s : State)
    (h : ∀ err, Event.stopReturned err ∈ s.trace → err = w.stopResult) :
    ∀ err, Event.stopReturned err ∈ (mainStep sk w s).trace → err = w.stopResult := by
  intro err hm
  rw [mainStep_trace, List.mem_append] at hm
  rcases hm with hm | hm
  · exact h err hm
  · exact (stopReturned_mem_mainEvents sk w s err hm).1

theorem mainStep_stopOrder (sk : Skeleton) (w : World) (s : State)
    (hs : stopCalledBy s.main = true → ∃ e ∈ s.trace, isStopCalled e)
    (h : Precedes isStopCalled isStopReturned s.trace) :
    Precedes isStopCalled isStopReturned (mainStep sk w s).trace := by
  rw [mainStep_trace]
  refine precedes_append h (fun c hc hQ => hs ?_)
  obtain ⟨err, rfl⟩ := hQ
  exact (stopReturned_mem_mainEvents sk w s err hc).2

theorem mainStep_notifiedAt (sk : Skeleton) (w : World) (s : State)
    (h : notifyDone s.main = true → s.notified = [SIGTERM, SIGINT]) :
    notifyDone (mainStep sk w s).main = true → (mainStep sk w s).notified = [SIGTERM, SIGINT] := by
  rcases s with ⟨main, bg, quit, notified, trace, proc⟩
  revert h
  cases sk <;> cases main <;> simp only [mainStep] <;> (try split) <;>
    simp [notifyDone, sigDone]

theorem not_stopErrLog_of_countP {es : List Event} (h : es.countP isStopErrLog = 0)
    {ev : Event} (hm : ev ∈ es) : isStopErrLog ev = false := by
  have := List.countP_eq_zero.mp h ev hm
  simpa using this

theorem countP_mainEvents_other (sk : Skeleton) (w : World) (s : State)
    (h : ∀ log db err, s.main ≠ MainPc.atStopErrCheck log db err) :
    (mainEvents sk w s).countP isStopErrLog = 0 := by
  rcases s with ⟨main, bg, quit, notified, trace, proc⟩
  cases main with
  | atLogInfo l => cases l <;> simp [mainEvents]
  | atErrCheck log db err =>
      cases err with
      | none => simp [mainEvents]
      | some e => exact countP_stopErr_emit _ _ _ _ (by decide)
  | atRecv log db => cases quit <;> simp [mainEvents, isStopErrLog]
  | atClose db => cases db <;> simp [mainEvents, isStopErrLog]
  | atDeferredClose db => cases db <;> simp [mainEvents, isStopErrLog]
  | atStopErrCheck log db err => exact absurd rfl (h log db err)
  | atLogDebug log => exact countP_stopErr_emit _ _ _ _ (by decide)
  | _ => simp [mainEvents, isStopErrLog]

theorem stopErrLog_mem_mainEvents (sk : Skeleton) (w : World) (s : State) (ev : Event)
    (he : stopErrOk w s.main = true) (hm : ev ∈ mainEvents sk w s)
    (hl : isStopErrLog ev = true) : ∃ e, w.stopResult = some e ∧ isStopErrLogOf e ev := by
  by_cases hpc : ∀ log db err, s.main ≠ MainPc.atStopErrCheck log db err
  · have := not_stopErrLog_of_countP (countP_mainEvents_other sk w s hpc) hm
    rw [hl] at this
    cases this
  · rcases s with ⟨main, bg, quit, notified, trace, proc⟩
    simp only [ne_eq, not_forall, not_not] at hpc
    obtain ⟨log, db, err, hpc⟩ := hpc
    subst hpc
    simp only [stopErrOk, decide_eq_true_eq] at he
    subst he
    cases hr : w.stopResult with
    | none =>
        simp only [mainEvents, hr, stopErrEntry] at hm
        cases hm
    | some e =>
        simp only [mainEvents, hr, stopErrEntry, Logger.emit] at hm
        split at hm
        · simp only [List.mem_singleton] at hm
          exact ⟨e, rfl, ⟨_, hm⟩⟩
        · cases hm

theorem mainStep_stopLogVal (sk : Skeleton) (w : World) (s : State)
    (he : stopErrOk w s.main = true)
    (h : ∀ ev ∈ s.trace, isStopErrLog ev = true →
      ∃ e, w.stopResult = some e ∧ isStopErrLogOf e ev) :
    ∀ ev ∈ (mainStep sk w s).trace, isStopErrLog ev = true →
      ∃ e, w.stopResult = some e ∧ isStopErrLogOf e ev := by
  intro ev hm hl
  rw [mainStep_trace, List.mem_append] at hm
  rcases hm with hm | hm
  · exact h ev hm hl
  · exact stopErrLog_mem_mainEvents sk w s ev he hm hl

theorem inv_mainStep (sk : Skeleton) (w : World) (s : State) (h : Inv sk w s)
    (hp : s.proc = Proc.running) : Inv sk w (mainStep sk w s) := by
  have hd : s.main ≠ MainPc.done := by
    intro hc
    have := h.procRet.mpr hc
    rw [hp] at this
    cases this
  have hproc := mainStep_proc sk w s hp h.db h.valid hd
  exact
    { valid := mainStep_valid sk w s h.valid
      db := mainStep_db sk w s h.db
      errOk := mainStep_errOk_of sk w s h.errOk
      notifiedAt := mainStep_notifiedAt sk w s h.notifiedAt
      stopLogCount := mainStep_stopLogCount sk w s h.errOk h.stopLogCount
      stopCallSeen := mainStep_stopCallSeen sk w s h.stopCallSeen
      noSig := mainStep_noSig sk w s h.noSig
      stopVal := mainStep_stopVal sk w s h.stopVal
      stopLogVal := mainStep_stopLogVal sk w s h.errOk h.stopLogVal
      stopOrder := mainStep_stopOrder sk w s h.stopCallSeen h.stopOrder
      bgOk := mainStep_bgOk sk w s h.bgOk
      bgPre := mainStep_bgPre sk w s h.bgPre
      quitOk := mainStep_quitOk sk w s h.quitOk
      notifiedOk := mainStep_notifiedOk sk w s h.notifiedOk
      closeCount := mainStep_closeCount sk w s h.valid h.closeCount
      stopSeen := mainStep_stopSeen sk w s h.stopSeen
      sigSeen := mainStep_sigSeen sk w s h.sigSeen
      noSpawn := mainStep_noSpawn sk w s h.noSpawn
      noStop := mainStep_noStop sk w s h.noStop
      noPg := mainStep_noPg sk w s h.noPg
      pgFail := mainStep_pgFail sk w s h.pgFail
      closeOrder := mainStep_closeOrder sk w s h.stopSeen h.closeOrder
      closeSig := mainStep_closeSig sk w s h.sigSeen h.closeSig
      procExit := hproc.1
      procPanic := hproc.2.1
      procRet := hproc.2.2 }

/-- A step of the background goroutine or of the listener: it appends events
that are none of the main goroutine's and moves the goroutine. -/
theorem inv_background (sk : Skeleton) (w : World) (s : State) (h : Inv sk w s) (es : List Event)
    (bg : BgPc) (h1 : Event.closeCalled ∉ es) (h2 : Event.stopCalled ∉ es)
    (h3 : Event.goSpawn ∉ es) (h4 : spawnDone s.main = false → Event.srvRunCalled ∉ es)
    (h5 : ∀ db err, Event.pgNewReturned db err ∉ es) (h8 : es.countP isStopErrLog = 0)
    (h9 : ∀ sig, Event.received sig ∉ es) (h10 : ∀ err, Event.stopReturned err ∉ es)
    (h6 : bg ≠ BgPc.returned none)
    (h7 : spawnDone s.main = false → bg = BgPc.notSpawned) :
    Inv sk w { s with bg := bg, trace := s.trace ++ es } :=
  { valid := h.valid
    db := h.db
    errOk := h.errOk
    notifiedAt := h.notifiedAt
    stopLogCount := by
      show (s.trace ++ es).countP isStopErrLog = _
      rw [List.countP_append, h8, Nat.add_zero]
      exact h.stopLogCount
    stopCallSeen := fun hd => by
      obtain ⟨e, he, hP⟩ := h.stopCallSeen hd
      exact ⟨e, List.mem_append_left _ he, hP⟩
    noSig := fun hd sig => by
      have := h.noSig hd sig
      show Event.received sig ∉ s.trace ++ es
      simp [this, h9 sig]
    stopVal := fun err hm => by
      rcases List.mem_append.mp hm with hm | hm
      · exact h.stopVal err hm
      · exact absurd hm (h10 err)
    stopLogVal := fun ev hm hl => by
      rcases List.mem_append.mp hm with hm | hm
      · exact h.stopLogVal ev hm hl
      · have := not_stopErrLog_of_countP h8 hm
        rw [hl] at this
        cases this
    stopOrder := precedes_append h.stopOrder (fun c hc hQ => by
      obtain ⟨err, rfl⟩ := hQ
      exact absurd hc (h10 err))
    bgOk := h6
    bgPre := h7
    quitOk := h.quitOk
    notifiedOk := h.notifiedOk
    closeCount := by
      show (s.trace ++ es).count Event.closeCalled = _
      rw [List.count_append, List.count_eq_zero_of_not_mem h1, Nat.add_zero]
      exact h.closeCount
    stopSeen := fun hd => by
      obtain ⟨e, he, hP⟩ := h.stopSeen hd
      exact ⟨e, List.mem_append_left _ he, hP⟩
    sigSeen := fun hd => by
      obtain ⟨e, he, hP⟩ := h.sigSeen hd
      exact ⟨e, List.mem_append_left _ he, hP⟩
    noSpawn := fun hd => by
      have := h.noSpawn hd
      show Event.goSpawn ∉ s.trace ++ es ∧ Event.srvRunCalled ∉ s.trace ++ es
      simp [this.1, this.2, h3, h4 hd]
    noStop := fun hd => by
      have := h.noStop hd
      show Event.stopCalled ∉ s.trace ++ es
      simp [this, h2]
    noPg := fun hd db err => by
      have := h.noPg hd db err
      show Event.pgNewReturned db err ∉ s.trace ++ es
      simp [this, h5 db err]
    pgFail := by
      rintro ⟨db, e, hm⟩
      rcases List.mem_append.mp hm with hm | hm
      · exact h.pgFail ⟨db, e, hm⟩
      · exact absurd hm (h5 db (some e))
    closeOrder := precedes_append h.closeOrder (fun c hc hQ => by
      rw [hQ] at hc
      exact absurd hc h1)
    closeSig := precedes_append h.closeSig (fun c hc hQ => by
      rw [hQ] at hc
      exact absurd hc h1)
    procExit := h.procExit
    procPanic := h.procPanic
    procRet := h.procRet }

theorem bgStep_eq (sk : Skeleton) (w : World) (s : State) (h : Inv sk w s) :
    ∃ es bg, bgStep s = { s with bg := bg, trace := s.trace ++ es } ∧
      Event.closeCalled ∉ es ∧ Event.stopCalled ∉ es ∧ Event.goSpawn ∉ es ∧
      (spawnDone s.main = false → Event.srvRunCalled ∉ es) ∧
      (∀ db err, Event.pgNewReturned db err ∉ es) ∧ es.countP isStopErrLog = 0 ∧
      (∀ sig, Event.received sig ∉ es) ∧ (∀ err, Event.stopReturned err ∉ es) ∧
      bg ≠ BgPc.returned none ∧
      (spawnDone s.main = false → bg = BgPc.notSpawned) := by
  have hpre := h.bgPre
  have hok := h.bgOk
  rcases s with ⟨main, bg, quit, notified, trace, proc⟩
  simp only at hpre hok
  cases bg with
  | notSpawned => exact ⟨[], BgPc.notSpawned, by simp [bgStep], by simp⟩
  | spawned =>
      refine ⟨[Event.srvRunCalled], BgPc.serving, by simp [bgStep], by simp, by simp, by simp,
        ?_, by simp, by simp [isStopErrLog], by simp, by simp, by simp, ?_⟩
      · intro hd
        cases hpre hd
      · intro hd
        cases hpre hd
  | serving =>
      refine ⟨[], BgPc.serving, by simp [bgStep], by simp, by simp, by simp, by simp, by simp,
        by simp, by simp, by simp, by simp, ?_⟩
      intro hd
      cases hpre hd
  | returned err =>
      cases err with
      | none => exact absurd rfl hok
      | some e =>
          have hr : (listenerTask (some e)).2 = true := by
            unfold listenerTask
            split <;> rfl
          refine ⟨(listenerTask (some e)).1, BgPc.finished, by simp [bgStep, hr],
            by simp [Event.isLog], by simp [Event.isLog], by simp [Event.isLog],
            by simp [Event.isLog], by simp [Event.isLog], by simp, by simp [Event.isLog],
            by simp [Event.isLog], by simp, ?_⟩
          intro hd
          cases hpre hd
  | finished =>
      refine ⟨[], BgPc.finished, by simp [bgStep], by simp, by simp, by simp, by simp, by simp,
        by simp, by simp, by simp, by simp, ?_⟩
      intro hd
      cases hpre hd

theorem inv_bgStep (sk : Skeleton) (w : World) (s : State) (h : Inv sk w s) :
    Inv sk w (bgStep s) := by
  obtain ⟨es, bg, heq, h1, h2, h3, h4, h5, h8, h9, h10, h6, h7⟩ := bgStep_eq sk w s h
  rw [heq]
  exact inv_background sk w s h es bg h1 h2 h3 h4 h5 h8 h9 h10 h6 h7

theorem inv_listenerStep (sk : Skeleton) (w : World) (e : GoError) (s : State) (h : Inv sk w s) :
    Inv sk w (listenerStep e s) := by
  have hpre := h.bgPre
  unfold listenerStep
  split
  · rename_i hb
    refine inv_background sk w s h [Event.srvRunReturned e] _ (by simp) (by simp) (by simp)
      (by simp) (by simp) (by simp [isStopErrLog]) (by simp) (by simp) (by simp) ?_
    intro hd
    rw [hpre hd] at hb
    cases hb
  · exact h

theorem inv_signalStep (sk : Skeleton) (w : World) (sig : Signal) (s : State) (h : Inv sk w s)
    (hp : s.proc = Proc.running) : Inv sk w (signalStep w sig s) := by
  unfold signalStep
  split
  · rename_i hmem
    split
    · exact
        { valid := h.valid, db := h.db, bgOk := h.bgOk, bgPre := h.bgPre, errOk := h.errOk,
          notifiedAt := h.notifiedAt,
          stopLogCount := h.stopLogCount, stopCallSeen := h.stopCallSeen, noSig := h.noSig,
          stopVal := h.stopVal, stopOrder := h.stopOrder, stopLogVal := h.stopLogVal,
          quitOk := by
            intro sg hsg
            simp only [Option.some.injEq] at hsg
            subst hsg
            exact h.notifiedOk _ hmem
          notifiedOk := h.notifiedOk, closeCount := h.closeCount, stopSeen := h.stopSeen,
          sigSeen := h.sigSeen, noSpawn := h.noSpawn, noStop := h.noStop, noPg := h.noPg,
          pgFail := h.pgFail, closeOrder := h.closeOrder, closeSig := h.closeSig,
          procExit := h.procExit, procPanic := h.procPanic, procRet := h.procRet }
    · exact h
  · split
    · have hd : s.main ≠ MainPc.done := by
        intro hc
        have := h.procRet.mpr hc
        rw [hp] at this
        cases this
      exact
        { valid := h.valid, db := h.db, bgOk := h.bgOk, bgPre := h.bgPre, errOk := h.errOk,
          notifiedAt := h.notifiedAt, quitOk := h.quitOk,
          stopLogCount := h.stopLogCount, stopCallSeen := h.stopCallSeen, noSig := h.noSig,
          stopVal := h.stopVal, stopOrder := h.stopOrder, stopLogVal := h.stopLogVal,
          notifiedOk := h.notifiedOk, closeCount := h.closeCount, stopSeen := h.stopSeen,
          sigSeen := h.sigSeen, noSpawn := h.noSpawn, noStop := h.noStop, noPg := h.noPg,
          pgFail := h.pgFail, closeOrder := h.closeOrder, closeSig := h.closeSig,
          procExit := fun c hc => by simp at hc
          procPanic := fun hc => by simp at hc
          procRet := ⟨fun hc => by simp at hc, fun hc => absurd hc hd⟩ }
    · exact h

theorem inv_step (sk : Skeleton) (w : World) (s : State) (i : Input) (h : Inv sk w s) :
    Inv sk w (step sk w s i) := by
  unfold step
  split
  · rename_i hp
    cases i with
    | main => exact inv_mainStep sk w s h hp
    | bg => exact inv_bgStep sk w s h
    | listenerReturns e => exact inv_listenerStep sk w e s h
    | signal sig => exact inv_signalStep sk w sig s h hp
  · exact h

theorem inv_foldl (sk : Skeleton) (w : World) (inputs : List Input) :
    ∀ s, Inv sk w s → Inv sk w (inputs.foldl (step sk w) s) := by
  induction inputs with
  | nil => exact fun s h => h
  | cons i rest ih => exact fun s h => ih _ (inv_step sk w s i h)

theorem inv_Run (sk : Skeleton) (w : World) (inputs : List Input) : Inv sk w (Run sk w inputs) :=
  inv_foldl sk w inputs init (inv_init sk w)

@[simp] theorem eraseStopErr_idem (pc : MainPc) :
    eraseStopErr (eraseStopErr pc) = eraseStopErr pc := by
  cases pc <;> rfl

theorem errorsIsLoop_eq_isOrWraps (target e : GoError) :
    errorsIsLoop target e = isOrWraps target e := by
  induction e with
  | wrap msg err ih =>
      rw [errorsIsLoop, ih]
      simp only [isOrWraps, unwrapChain, List.mem_cons]
      by_cases h1 : GoError.wrap msg err = target
      · simp [h1, eq_comm]
      · have h2 : ¬ target = GoError.wrap msg err := fun hc => h1 hc.symm
        simp [h1, h2]
  | errServerClosed => simp [errorsIsLoop, isOrWraps, unwrapChain, eq_comm]
  | deadlineExceeded => simp [errorsIsLoop, isOrWraps, unwrapChain, eq_comm]
  | other msg => simp [errorsIsLoop, isOrWraps, unwrapChain, eq_comm]

theorem close_after_stop_index (sk : Skeleton) (w : World) (inputs : List Input) (n : Nat)
    (h : (Run sk w inputs).trace.get? n = some Event.closeCalled) :
    ∃ k m, k < m ∧ m < n ∧ (Run sk w inputs).trace.get? k = some Event.stopCalled ∧
      (Run sk w inputs).trace.get? m = some (Event.stopReturned w.stopResult) := by
  have hinv := inv_Run sk w inputs
  obtain ⟨m, hmn, e, hm, ⟨err, rfl⟩⟩ := hinv.closeOrder.index n _ h rfl
  obtain ⟨k, hkm, c, hk, hc⟩ := hinv.stopOrder.index m _ hm ⟨err, rfl⟩
  have herr : err = w.stopResult := hinv.stopVal err (List.get?_mem hm)
  rw [hc] at hk
  rw [herr] at hm
  exact ⟨k, m, hkm, hmn, hk, hm⟩

/-- C1: in every execution of either skeleton, each call of the handle's
`Close` comes after `srv.Stop(ctx)` has been called and has returned. -/
theorem Run_close_after_stop (sk : Skeleton) (w : World) (inputs : List Input) (n : Nat)
    (h : (Run sk w inputs).trace.get? n = some Event.closeCalled) :
    ∃ k m, k < m ∧ m < n ∧ (Run sk w inputs).trace.get? k = some Event.stopCalled ∧
      (Run sk w inputs).trace.get? m = some (Event.stopReturned w.stopResult) :=
  close_after_stop_index sk w inputs n h

theorem Run_close_after_stop_witness :
    ((Run Skeleton.urlShortener sampleWorld (untilSignal ++ shutdownInputs)).trace.get? 13 =
        some Event.closeCalled ∧
      ∃ k m, k < m ∧ m < 13 ∧
        (Run Skeleton.urlShortener sampleWorld (untilSignal ++ shutdownInputs)).trace.get? k =
          some Event.stopCalled ∧
        (Run Skeleton.urlShortener sampleWorld (untilSignal ++ shutdownInputs)).trace.get? m =
          some (Event.stopReturned sampleWorld.stopResult)) ∧
    ((Run Skeleton.apiGateway sampleWorld (untilSignal ++ shutdownInputs)).trace.get? 13 =
        some Event.closeCalled ∧
      ∃ k m, k < m ∧ m < 13 ∧
        (Run Skeleton.apiGateway sampleWorld (untilSignal ++ shutdownInputs)).trace.get? k =
          some Event.stopCalled ∧
        (Run Skeleton.apiGateway sampleWorld (untilSignal ++ shutdownInputs)).trace.get? m =
          some (Event.stopReturned sampleWorld.stopResult)) :=
  ⟨⟨by decide, Run_close_after_stop Skeleton.urlShortener sampleWorld
      (untilSignal ++ shutdownInputs) 13 (by decide)⟩,
    ⟨by decide, Run_close_after_stop Skeleton.apiGateway sampleWorld
      (untilSignal ++ shutdownInputs) 13 (by decide)⟩⟩

/-- Why the exit and the return are stated for processes no signal has ended:
SIGINT before `signal.Notify` has run (here right after `pg.New` failed), or
SIGKILL during the shutdown, ends the process before `os.Exit(1)` or the return
is reached, however often the main goroutine is scheduled afterwards. -/
theorem signal_ends_process_first :
    (Run Skeleton.apiGateway openFailWorld
        (untilPgNew ++ [Input.signal SIGINT, Input.main, Input.main, Input.main])).proc =
      Proc.killed SIGINT ∧
    (Run Skeleton.urlShortener sampleWorld
        (untilSignal ++ Input.signal SIGKILL :: shutdownInputs)).proc = Proc.killed SIGKILL := by
  refine ⟨by decide, by decide⟩

/-- C4, the api gateway at the failing input: `Close` returns an error, `Run`
returns normally, and the trace holds no log entry for that error; the
url-shortener logs it on the same input. -/
theorem apiGateway_close_error_not_logged :
    (Run Skeleton.apiGateway closeFailWorld (untilSignal ++ shutdownInputs)).proc =
        Proc.returned ∧
      (Run Skeleton.apiGateway closeFailWorld (untilSignal ++ shutdownInputs)).trace =
        [Event.log HandlerKind.text Level.info "starting atanika" [LogArg.attr "env" "local"],
          Event.log HandlerKind.text Level.debug "debug messages are enabled" [],
          Event.pgNewReturned (some { id := 1 }) none,
          Event.goSpawn,
          Event.log HandlerKind.default Level.info "Server started on port:"
            [LogArg.str "8080", LogArg.str "successful"],
          Event.srvRunCalled,
          Event.notify [SIGTERM, SIGINT],
          Event.received SIGINT,
          Event.stopCalled,
          Event.srvRunReturned GoError.errServerClosed,
          Event.stopReturned none,
          Event.ctxCancel,
          Event.closeCalled,
          Event.closeReturned (some (GoError.other "close failed"))] ∧
      Event.log HandlerKind.default Level.error "Failed to close database: %v"
          [LogArg.err (GoError.other "close failed")] ∈
        (Run Skeleton.urlShortener closeFailWorld (untilSignal ++ shutdownInputs)).trace := by
  refine ⟨by decide, by decide, by decide⟩

/-- C5: in either skeleton, when the background `srv.Run()` has returned a
non-nil error `e`, the goroutine writes one error entry if `e` neither is nor
wraps `http.ErrServerClosed`, and nothing if it is or wraps it; in both cases
the process keeps running, the main goroutine stands where it stood, the quit
channel is untouched, and a main goroutine blocked on the channel is still
blocked. -/
theorem listener_error_logged_not_fatal (sk : Skeleton) (w : World) (s : State) (e : GoError)
    (hp : s.proc = Proc.running) (hb : s.bg = BgPc.returned (some e)) :
    (isOrWraps ErrServerClosed e = true →
        step sk w s Input.bg = { s with bg := BgPc.finished }) ∧
      (isOrWraps ErrServerClosed e = false →
        step sk w s Input.bg =
          { s with bg := BgPc.finished, trace := s.trace ++ [serverErrEntry e] }) ∧
      (step sk w s Input.bg).proc = Proc.running ∧
      (step sk w s Input.bg).main = s.main ∧
      (step sk w s Input.bg).quit = s.quit ∧
      (step sk w s Input.main = s → step sk w (step sk w s Input.bg) Input.main =
        step sk w s Input.bg) := by
  rcases s with ⟨main, bg, quit, notified, trace, proc⟩
  simp only at hp hb
  subst hp hb
  have his : errorsIs (some e) (some ErrServerClosed) = isOrWraps ErrServerClosed e :=
    errorsIsLoop_eq_isOrWraps ErrServerClosed e
  have hstep : step sk w ⟨main, BgPc.returned (some e), quit, notified, trace, Proc.running⟩
      Input.bg =
        { main := main, bg := BgPc.finished, quit := quit, notified := notified,
          trace := trace ++ (if isOrWraps ErrServerClosed e = true then [] else [serverErrEntry e]),
          proc := Proc.running } := by
    by_cases he : isOrWraps ErrServerClosed e = true
    · simp [step, bgStep, listenerTask, his, he]
    · simp [step, bgStep, listenerTask, his, he, Logger.emit, slogDefault, Level.toInt,
        serverErrEntry]
  refine ⟨fun he => by rw [hstep]; simp [he], fun he => by rw [hstep]; simp [he],
    by rw [hstep], by rw [hstep], by rw [hstep], ?_⟩
  rw [hstep]
  intro hblocked
  revert hblocked
  cases main with
  | atRecv log db => cases quit <;> simp [step, mainStep]
  | done => simp [step, mainStep]
  | atLogInfo l => cases l <;> simp [step, mainStep]
  | atErrCheck log db err => cases err <;> simp [step, mainStep]
  | atClose db => cases db <;> simp [step, mainStep]
  | atDeferredClose db => cases db <;> simp [step, mainStep]
  | _ => cases sk <;> simp [step, mainStep]

theorem listener_error_logged_not_fatal_witness :
    ((listenerReturned listenFailure).proc = Proc.running ∧
      (listenerReturned listenFailure).bg = BgPc.returned (some listenFailure) ∧
      isOrWraps ErrServerClosed listenFailure = false ∧
      step Skeleton.urlShortener sampleWorld (listenerReturned listenFailure) Input.bg =
        { listenerReturned listenFailure with
          bg := BgPc.finished,
          trace := (listenerReturned listenFailure).trace ++ [serverErrEntry listenFailure] }) ∧
    ((listenerReturned ErrServerClosed).bg = BgPc.returned (some ErrServerClosed) ∧
      isOrWraps ErrServerClosed ErrServerClosed = true ∧
      step Skeleton.urlShortener sampleWorld (listenerReturned ErrServerClosed) Input.bg =
        { listenerReturned ErrServerClosed with bg := BgPc.finished }) ∧
    ((listenerReturned wrappedClosed).bg = BgPc.returned (some wrappedClosed) ∧
      isOrWraps ErrServerClosed wrappedClosed = true ∧
      step Skeleton.urlShortener sampleWorld (listenerReturned wrappedClosed) Input.bg =
        { listenerReturned wrappedClosed with bg := BgPc.finished }) :=
  ⟨⟨by decide, by decide, by decide,
      (listener_error_logged_not_fatal Skeleton.urlShortener sampleWorld
        (listenerReturned listenFailure) listenFailure (by decide) (by decide)).2.1 (by decide)⟩,
    ⟨by decide, by decide,
      (listener_error_logged_not_fatal Skeleton.urlShortener sampleWorld
        (listenerReturned ErrServerClosed) ErrServerClosed (by decide) (by decide)).1
        (by decide)⟩,
    ⟨by decide, by decide,
      (listener_error_logged_not_fatal Skeleton.urlShortener sampleWorld
        (listenerReturned wrappedClosed) wrappedClosed (by decide) (by decide)).1 (by decide)⟩⟩

end app

/-- C8: `pg.New` returns the handle and a nil error when `sqlx.Open` succeeds,
and a nil handle with an error that wraps the cause, with message
`storage.pg.New: ` followed by the cause's message, when it fails; exactly one
of the two results is non-nil. -/
theorem pg_New_handle_xor_error (sqlxOpen : String → String → Except GoError DB)
    (cfg : pg.Config) :
    (∀ h, sqlxOpen "postgres" (pg.connString cfg) = Except.ok h →
      pg.New sqlxOpen cfg = (some h, none)) ∧
    (∀ e, sqlxOpen "postgres" (pg.connString cfg) = Except.error e →
      ∃ err, pg.New sqlxOpen cfg = (none, some err) ∧ err.Unwrap = some e ∧
        errorsIs (some err) (some e) = true ∧ err.Error = "storage.pg.New: " ++ e.Error) ∧
    ((pg.New sqlxOpen cfg).1.isSome = !(pg.New sqlxOpen cfg).2.isSome) := by
  refine ⟨?_, ?_, ?_⟩
  · intro h hopen
    simp [pg.New, hopen]
  · intro e hopen
    refine ⟨fmtErrorfW "storage.pg.New" e, by simp [pg.New, hopen], rfl, ?_, ?_⟩
    · simp [errorsIs, fmtErrorfW, errorsIsLoop, errorsIsLoop_self]
    · show "storage.pg.New" ++ ": " ++ e.Error = "storage.pg.New: " ++ e.Error
      rw [String.append_assoc]
      apply String.ext
      simp [String.data_append]
  · unfold pg.New
    split <;> rfl

theorem pg_New_handle_xor_error_witness :
    pg.New (fun _ _ => Except.ok { id := 7 }) (app.pgConfig app.sampleCfg) =
        (some { id := 7 }, none) ∧
      ∃ err, pg.New (fun _ _ => Except.error GoError.deadlineExceeded)
          (app.pgConfig app.sampleCfg) = (none, some err) ∧
        err.Unwrap = some GoError.deadlineExceeded ∧
        errorsIs (some err) (some GoError.deadlineExceeded) = true ∧
        err.Error = "storage.pg.New: " ++ GoError.deadlineExceeded.Error :=
  ⟨(pg_New_handle_xor_error (fun _ _ => Except.ok { id := 7 })
      (app.pgConfig app.sampleCfg)).1 { id := 7 } rfl,
    (pg_New_handle_xor_error (fun _ _ => Except.error GoError.deadlineExceeded)
      (app.pgConfig app.sampleCfg)).2.1 GoError.deadlineExceeded rfl⟩

/-- C9: `setupLogger` returns a logger exactly for the environments `local`,
`dev` and `prod` (text at debug, JSON at debug, JSON at info) and nil for
every other string, the empty one included; with such an environment the
first log call of `Run` has a nil receiver, before anything has been logged. -/
theorem setupLogger_cases (env : String) :
    ((app.setupLogger env).isSome = true ↔ env = "local" ∨ env = "dev" ∨ env = "prod") ∧
      app.setupLogger "local" = some { handler := HandlerKind.text, level := Level.debug } ∧
      app.setupLogger "dev" = some { handler := HandlerKind.json, level := Level.debug } ∧
      app.setupLogger "prod" = some { handler := HandlerKind.json, level := Level.info } ∧
      app.setupLogger "" = none ∧
      (env ≠ "local" → env ≠ "dev" → env ≠ "prod" →
        app.setupLogger env = none ∧
          ∀ sk w, w.cfg.Env = env →
            (app.Run sk w [app.Input.main]).main = app.MainPc.atLogInfo none ∧
              (app.Run sk w [app.Input.main]).trace = [] ∧
              (app.Run sk w [app.Input.main, app.Input.main]).proc = app.Proc.panicked) := by
  refine ⟨setupLogger_isSome_iff env, by decide, by decide, by decide, by decide, ?_⟩
  intro h1 h2 h3
  have hnone : app.setupLogger env = none := by
    simp [app.setupLogger, app.envLocal, app.envDev, app.envProd, h1, h2, h3]
  refine ⟨hnone, ?_⟩
  intro sk w hw
  subst hw
  simp [app.Run, app.step, app.init, app.mainStep, hnone]

theorem setupLogger_cases_witness :
    app.setupLogger "staging" = none ∧
      (app.Run app.Skeleton.urlShortener
        { app.sampleWorld with cfg := { app.sampleCfg with Env := "staging" } }
        [app.Input.main, app.Input.main]).proc = app.Proc.panicked :=
  ⟨((setupLogger_cases "staging").2.2.2.2.2 (by decide) (by decide) (by decide)).1,
    (((setupLogger_cases "staging").2.2.2.2.2 (by decide) (by decide) (by decide)).2
      app.Skeleton.urlShortener
      { app.sampleWorld with cfg := { app.sampleCfg with Env := "staging" } } rfl).2.2⟩

/-- C10: the connection string of `pg.New` is the six fields behind their
keywords, in the order host, port, user, dbname, password, sslmode, separated
by single spaces; two configurations none of whose fields holds a space and
that give the same connection string are equal. -/
theorem connString_determines_config (c1 c2 : pg.Config)
    (h1 : ' ' ∉ c1.Host.data ∧ ' ' ∉ c1.Port.data ∧ ' ' ∉ c1.Username.data ∧
      ' ' ∉ c1.DBName.data ∧ ' ' ∉ c1.Password.data ∧ ' ' ∉ c1.SSLMode.data)
    (h2 : ' ' ∉ c2.Host.data ∧ ' ' ∉ c2.Port.data ∧ ' ' ∉ c2.Username.data ∧
      ' ' ∉ c2.DBName.data ∧ ' ' ∉ c2.Password.data ∧ ' ' ∉ c2.SSLMode.data)
    (h : pg.connString c1 = pg.connString c2) :
    pg.connString c1 =
        "host=" ++ c1.Host ++ " port=" ++ c1.Port ++ " user=" ++ c1.Username ++ " dbname=" ++
          c1.DBName ++ " password=" ++ c1.Password ++ " sslmode=" ++ c1.SSLMode ∧
      c1 = c2 :=
  ⟨rfl, connString_injective c1 c2 h1 h2 h⟩

theorem connString_determines_config_witness :
    pg.connString (app.pgConfig app.sampleCfg) =
        "host=localhost port=5432 user=t dbname=t password=t sslmode=disable" ∧
      app.pgConfig app.sampleCfg = app.pgConfig app.sampleCfg :=
  ⟨by decide,
    (connString_determines_config (app.pgConfig app.sampleCfg) (app.pgConfig app.sampleCfg)
      (by decide) (by decide) rfl).2⟩

end Atanika
